import Mathlib

/-!
Shallow embedding of the verdaccio authentication/authorization core
(`src/lib/auth.js`): the pluggable provider chain, the signed token codec,
the symmetric credential cipher, the principal builders, and the three
credential-extraction middlewares.  Pure data is modelled with Lean
structures; asynchronous callback results are modelled as explicit verdict
values; JS exceptions are modelled with `Except`.
-/

namespace Verdaccio

/-- An error object as produced by the `http-errors` library (`Error[403](msg)`
and friends).  `status` is `none` for a plain JS exception without an HTTP
status (e.g. a JSON parse error escaping from `jju.parse`). -/
structure JsError where
  status : Option Nat
  message : String
deriving DecidableEq, Repr

/-- Build an `http-errors` object: `Error[status](message)`. -/
def httpError (s : Nat) (m : String) : JsError := ⟨some s, m⟩

/-- Decidable equality for `Except`, used to evaluate chain results on
concrete inputs. -/
def exceptDecEq {ε α : Type} [DecidableEq ε] [DecidableEq α] :
    DecidableEq (Except ε α) := fun a b =>
  match a, b with
  | .error x, .error y =>
    if h : x = y then .isTrue (by rw [h]) else .isFalse (by intro hh; cases hh; exact h rfl)
  | .error _, .ok _ => .isFalse (by intro hh; cases hh)
  | .ok _, .error _ => .isFalse (by intro hh; cases hh)
  | .ok x, .ok y =>
    if h : x = y then .isTrue (by rw [h]) else .isFalse (by intro hh; cases hh; exact h rfl)

instance {ε α : Type} [DecidableEq ε] [DecidableEq α] : DecidableEq (Except ε α) :=
  exceptDecEq

/-- The three outcomes a provider callback can deliver for one operation:
`cb(err)` is `err`, a JS-truthy result `cb(null, v)` is `ok v`, and an
empty/negative result (`cb()` / `cb(null, false)`) is `empty`. -/
inductive PluginResult (α : Type) where
  | err (e : JsError)
  | ok (v : α)
  | empty
deriving DecidableEq, Repr

/-- A principal record as attached to `req.remote_user`: built by
`buildAnonymousUser` / `authenticatedUser`, possibly later carrying a
diagnostic `error` message or the raw bearer `token`. -/
structure RemoteUser where
  name : Option String
  groups : List String
  real_groups : Option (List String)
  error : Option String := none
  token : Option String := none
deriving DecidableEq, Repr

/-- A package descriptor: `Object.assign({name: package_name}, get_package_spec(...))`. -/
structure Package where
  name : String
  access : List String
  publish : List String
deriving DecidableEq, Repr

/-- What the config collaborator returns from `get_package_spec`. -/
structure PackageSpec where
  access : List String
  publish : List String
deriving DecidableEq, Repr

/-- The dynamic field access `pkg[action]` for the two actions used by
`allow_action('access')` / `allow_action('publish')`. -/
def Package.acl (pkg : Package) (action : String) : List String :=
  if action = "access" then pkg.access
  else if action = "publish" then pkg.publish
  else []

/-- The slice of the configuration object the auth core reads: the static
`users` table (username to SHA-1 password digest, `none` when `config.users`
is null), the shared `secret`, and the package-spec lookup collaborator. -/
structure Config where
  users : Option (List (String × String))
  secret : String
  get_package_spec : String → PackageSpec

/-- A capability provider: each of the operation slots is `none` when the
plugin does not implement that method (`typeof p[n] !== 'function'`).
Note the two spellings `adduser` and `add_user` are distinct slots, as in
the source. -/
structure Plugin where
  authenticate : Option (String → String → PluginResult (List String)) := none
  adduser : Option (String → String → PluginResult Unit) := none
  add_user : Option (String → String → PluginResult Unit) := none
  allow_access : Option (RemoteUser → Package → PluginResult Bool) := none
  allow_publish : Option (RemoteUser → Package → PluginResult Bool) := none

/-- The token payload `{u, g, t}`: `u` and `g` are absent (`undefined`) when
the serializer omitted them. -/
structure Payload where
  u : Option String
  g : Option (List String)
  t : Int
deriving DecidableEq, Repr

/-! ### Modelled external collaborators: serialization, base64, digests -/

/-- Little-endian base-128 varint encoding (structural recursion on a fuel
argument that bounds the value, so that it reduces in the kernel). -/
def encVLQAux : Nat → Nat → List Nat
  | 0, n => [n % 128]
  | Nat.succ f, n => if n < 128 then [n] else (n % 128 + 128) :: encVLQAux f (n / 128)

/-- Little-endian base-128 varint encoding of a natural number; every byte
is below 256.  Building block of the modelled deterministic serializer. -/
def encVLQ (n : Nat) : List Nat := encVLQAux n n

/-- Inverse of `encVLQ` on a byte stream; returns the value and the rest. -/
def decVLQ : List Nat → Option (Nat × List Nat)
  | [] => none
  | b :: rest =>
    if b < 128 then some (b, rest)
    else
      match decVLQ rest with
      | some (m, r) => some (b - 128 + 128 * m, r)
      | none => none

/-- Encode a sequence of characters, each as a varint of its code point. -/
def encChars : List Char → List Nat
  | [] => []
  | c :: cs => encVLQ c.toNat ++ encChars cs

/-- Decode exactly `n` characters from a byte stream. -/
def decChars : Nat → List Nat → Option (List Char × List Nat)
  | 0, bs => some ([], bs)
  | Nat.succ k, bs =>
    match decVLQ bs with
    | none => none
    | some (v, r) =>
      match decChars k r with
      | none => none
      | some (cs, r2) => some (Char.ofNat v :: cs, r2)

/-- Encode a string: length prefix, then its characters. -/
def encStr (s : String) : List Nat := encVLQ s.data.length ++ encChars s.data

/-- Decode a string. -/
def decStr (bs : List Nat) : Option (String × List Nat) :=
  match decVLQ bs with
  | none => none
  | some (n, r) =>
    match decChars n r with
    | none => none
    | some (cs, r2) => some (String.mk cs, r2)

/-- Encode a list of strings back to back. -/
def encStrs : List String → List Nat
  | [] => []
  | s :: ss => encStr s ++ encStrs ss

/-- Decode exactly `n` strings. -/
def decStrs : Nat → List Nat → Option (List String × List Nat)
  | 0, bs => some ([], bs)
  | Nat.succ k, bs =>
    match decStr bs with
    | none => none
    | some (s, r) =>
      match decStrs k r with
      | none => none
      | some (ss, r2) => some (s :: ss, r2)

/-- Encode an optional string: a presence tag, then the string.  An absent
value models a JSON field omitted because it was `undefined`. -/
def encOptStr : Option String → List Nat
  | none => [0]
  | some s => 1 :: encStr s

/-- Decode an optional string. -/
def decOptStr : List Nat → Option (Option String × List Nat)
  | 0 :: r => some (none, r)
  | 1 :: r =>
    match decStr r with
    | none => none
    | some (s, r2) => some (some s, r2)
  | _ => none

/-- Encode an optional string list: presence tag, length, elements. -/
def encOptListStr : Option (List String) → List Nat
  | none => [0]
  | some l => 1 :: (encVLQ l.length ++ encStrs l)

/-- Decode an optional string list. -/
def decOptListStr : List Nat → Option (Option (List String) × List Nat)
  | 0 :: r => some (none, r)
  | 1 :: r =>
    match decVLQ r with
    | none => none
    | some (n, r1) =>
      match decStrs n r1 with
      | none => none
      | some (ss, r2) => some (some ss, r2)
  | _ => none

/-- Encode an integer: sign tag, then magnitude. -/
def encInt (t : Int) : List Nat := (if t < 0 then 1 else 0) :: encVLQ t.natAbs

/-- Decode an integer. -/
def decInt : List Nat → Option (Int × List Nat)
  | 0 :: r =>
    match decVLQ r with
    | none => none
    | some (n, r2) => some ((n : Int), r2)
  | 1 :: r =>
    match decVLQ r with
    | none => none
    | some (n, r2) => some (-(n : Int), r2)
  | _ => none

/-- Modelled from the spec: `jju.stringify({u, g, t}, {indent: false})`, the
external deterministic serializer ("serialize deterministically"); fields
with an `undefined` value are omitted.  Modelled as an injective byte-level
encoding (every byte below 256) with `parsePayload` as its inverse. -/
def serializePayload (p : Payload) : List Nat :=
  encOptStr p.u ++ encOptListStr p.g ++ encInt p.t

/-- Modelled from the spec: `jju.parse`, the external deserializer; returns
`none` (a thrown parse error) on bytes that are not a serialized payload. -/
def parsePayload (bs : List Nat) : Option Payload :=
  match decOptStr bs with
  | none => none
  | some (u, r1) =>
    match decOptListStr r1 with
    | none => none
    | some (g, r2) =>
      match decInt r2 with
      | none => none
      | some (t, r3) => if r3 = [] then some ⟨u, g, t⟩ else none

/-- Modelled from the spec: base64 transport encoding by the external
`Buffer` collaborator.  Base64 is an injective encoding of byte sequences
into strings whose alphabet contains no space; modelled by mapping byte `b`
to the code point `b + 256` (never a space, so header splitting on spaces
is unaffected, as with real base64). -/
def base64encode (l : List Nat) : String :=
  String.mk (l.map fun b => Char.ofNat (b + 256))

/-- Modelled from the spec: base64 decoding, `new Buffer(str, 'base64')`;
left inverse of `base64encode` on byte sequences. -/
def base64decode (s : String) : List Nat :=
  s.data.map fun c => c.toNat - 256

/-- Modelled from the spec: `Buffer(...).toString('utf8')` by the external
`Buffer` collaborator; an injective bytes-to-string decoding, the inverse
of `stringToBytes`.  The empty byte sequence maps to the empty string. -/
def bytesToString (l : List Nat) : String :=
  String.mk (l.map Char.ofNat)

/-- Modelled from the spec: `new Buffer(str, 'utf8')`. -/
def stringToBytes (s : String) : List Nat :=
  s.data.map Char.toNat

/-- Modelled from the spec: `Crypto.createHash('sha1').update(pw).digest('hex')`
from the external Crypto collaborator; a deterministic digest of a string,
compared only for equality. -/
def sha1hex (s : String) : String :=
  toString (s.data.foldl (fun a c => (a * 131 + c.toNat + 1) % 100000007) 7)

/-- Modelled from the spec: `Crypto.createHmac('sha256', secret)` from the
external Crypto collaborator; a deterministic keyed digest of exactly 32
bytes, each below 256. -/
def hmacSha256 (secret : String) (data : List Nat) : List Nat :=
  (List.range 32).map fun i =>
    (data.foldl (fun a b => (a * 131 + b + 1) % 65521)
      (secret.data.foldl (fun a c => (a * 131 + c.toNat + 1) % 65521) 91) + i) % 256

/-- Modelled from the spec: `Crypto.createHash('sha512').update(mac).digest('hex')`,
the secondary digest through which the two MACs are compared (the design
quirk of §9); a deterministic digest, compared only for equality. -/
def sha512hex (l : List Nat) : Nat :=
  l.foldl (fun a b => (a * 257 + b + 1) % 1000000007) 3

/-- Modelled from the spec: a key tag derived from the secret, used by the
modelled symmetric cipher; always below 256. -/
def keyTag (secret : String) : Nat :=
  secret.data.foldl (fun a c => (a * 131 + c.toNat) % 251) 7

/-- Modelled from the spec: the AES-192 cipher of the external Crypto
collaborator (`createCipher('aes192', secret)`); an injective keyed
encoding, modelled by prepending a key tag. -/
def cryptoCipher (secret : String) (data : List Nat) : List Nat :=
  keyTag secret :: data

/-- Modelled from the spec: the AES-192 decipher
(`createDecipher('aes192', secret)`); deciphering fails (throws, `none`
here) on bad padding or corrupt input, modelled as any input not produced
by `cryptoCipher` with the same secret. -/
def cryptoDecipher (secret : String) (buf : List Nat) : Option (List Nat) :=
  match buf with
  | [] => none
  | t :: rest => if t = keyTag secret then some rest else none

/-! ### Principal builders and the two built-in providers -/

/-- `buildAnonymousUser()`: the anonymous principal with its seven fixed
group strings (including the literal strings `'undefined'` and
`'anonymous'`). -/
def buildAnonymousUser : RemoteUser :=
  { name := none
    groups := ["$all", "$anonymous", "@all", "@anonymous", "all", "undefined", "anonymous"]
    real_groups := some [] }

/-- `authenticatedUser(name, groups)`: the authenticated principal; the five
synthetic markers are appended after the real groups (`groups || []`), and
`real_groups` keeps `groups` as passed (possibly absent). -/
def authenticatedUser (name : Option String) (groups : Option (List String)) : RemoteUser :=
  { name := name
    groups := groups.getD [] ++ ["$all", "$authenticated", "@all", "@authenticated", "all"]
    real_groups := groups }

/-- `allow_action(action)`: the deny-all provider's access/publish check.
`ok` is the fold of `pkg[action]` testing membership of each ACL group in
`user.groups`; on failure the 403 message names the user when `user.name`
is JS-truthy (defined and non-empty), else says "unregistered users". -/
def allow_action (action : String) (user : RemoteUser) (pkg : Package) : PluginResult Bool :=
  let ok := (pkg.acl action).foldl
    (fun prev curr => if user.groups.contains curr then true else prev) false
  if ok then .ok true
  else
    match user.name with
    | some n =>
      if n = "" then
        .err (httpError 403 ("unregistered users are not allowed to " ++ action ++ " package " ++ pkg.name))
      else
        .err (httpError 403 ("user " ++ n ++ " is not allowed to " ++ action ++ " package " ++ pkg.name))
    | none =>
      .err (httpError 403 ("unregistered users are not allowed to " ++ action ++ " package " ++ pkg.name))

/-- The static-credential built-in provider (always unshifted to index 0):
`authenticate` affirms `[user]` only on an exact SHA-1 password-digest match
in `config.users`; `adduser` errors 403 "this user already exists" when the
username is in the table, else defers. -/
def builtinPlugin (config : Config) : Plugin :=
  { authenticate := some fun user password =>
      match config.users with
      | none => .empty
      | some tbl =>
        match tbl.lookup user with
        | none => .empty
        | some pwhash => if sha1hex password = pwhash then .ok [user] else .empty
    adduser := some fun user _password =>
      match config.users with
      | none => .empty
      | some tbl =>
        match tbl.lookup user with
        | none => .empty
        | some _ => .err (httpError 403 "this user already exists") }

/-- The deny-all built-in provider (always pushed last): `authenticate`
always errors 403, `add_user` always errors 409, and the two allow
operations run `allow_action`. -/
def denyAllPlugin : Plugin :=
  { authenticate := some fun _ _ => .err (httpError 403 "bad username/password, access denied")
    add_user := some fun _ _ => .err (httpError 409 "registration is disabled")
    allow_access := some (allow_action "access")
    allow_publish := some (allow_action "publish") }

/-! ### The Auth facade and the chain walk -/

/-- The Auth facade object: configuration, the shared secret, and the owned
ordered provider chain. -/
structure Auth where
  config : Config
  secret : String
  plugins : List Plugin

/-- `function Auth(config)`: external plugins are kept (in order) when they
implement at least one of authenticate/allow_access/allow_publish (the
`load_plugins` filter), the static-credential built-in is unshifted to the
front and the deny-all built-in pushed to the back. -/
def Auth.make (config : Config) (external : List Plugin) : Auth :=
  { config := config
    secret := config.secret
    plugins := builtinPlugin config ::
      (external.filter fun p =>
        p.authenticate.isSome || p.allow_access.isSome || p.allow_publish.isSome)
      ++ [denyAllPlugin] }

/-- The chain walk `next()` shared by all four operations, applied to the
per-provider invocations (`none` = provider does not implement the
operation, skipped).  Returns `none` when the list is exhausted (in the
source, `plugins.shift()` yields `undefined` and the walk crashes; the
deny-all provider is relied upon to prevent this). -/
def chainWalk {α : Type} : List (Option (PluginResult α)) → Option (Except JsError α)
  | [] => none
  | none :: rest => chainWalk rest
  | some r :: rest =>
    match r with
    | .err e => some (.error e)
    | .ok v => some (.ok v)
    | .empty => chainWalk rest

/-- The first non-empty verdict of an (already filtered) verdict sequence:
the declarative description of the chain's short-circuit rule. -/
def firstVerdict {α : Type} : List (PluginResult α) → Option (Except JsError α)
  | [] => none
  | .err e :: _ => some (.error e)
  | .ok v :: _ => some (.ok v)
  | .empty :: rest => firstVerdict rest

/-- `Auth.prototype.authenticate`: walk the chain's `authenticate`; an
affirmative group list is wrapped through `authenticatedUser(user, groups)`. -/
def Auth.authenticate (a : Auth) (user password : String) : Option (Except JsError RemoteUser) :=
  match chainWalk (a.plugins.map fun p => p.authenticate.map fun f => f user password) with
  | none => none
  | some (.error e) => some (.error e)
  | some (.ok groups) => some (.ok (authenticatedUser (some user) (some groups)))

/-- The method-name preference of the `add_user` walk: try `p['adduser']`,
fall back to `p['add_user']` when the former is not a function. -/
def Plugin.adduserOp (p : Plugin) : Option (String → String → PluginResult Unit) :=
  match p.adduser with
  | some f => some f
  | none => p.add_user

/-- `Auth.prototype.add_user`: walk the chain preferring each provider's
`adduser` over its `add_user` slot; a provider affirming creation makes the
facade re-run `authenticate` with the same credentials. -/
def Auth.add_user (a : Auth) (user password : String) : Option (Except JsError RemoteUser) :=
  match chainWalk (a.plugins.map fun p => p.adduserOp.map fun f => f user password) with
  | none => none
  | some (.error e) => some (.error e)
  | some (.ok _) => Auth.authenticate a user password

/-- `Object.assign({name: package_name}, this.config.get_package_spec(package_name))`. -/
def Auth.packageFor (a : Auth) (package_name : String) : Package :=
  let spec := a.config.get_package_spec package_name
  { name := package_name, access := spec.access, publish := spec.publish }

/-- `Auth.prototype.allow_access`: merge the package name into the config
collaborator's spec, then walk the chain's `allow_access`. -/
def Auth.allow_access (a : Auth) (package_name : String) (user : RemoteUser) :
    Option (Except JsError Bool) :=
  let pkg := a.packageFor package_name
  chainWalk (a.plugins.map fun p => p.allow_access.map fun f => f user pkg)

/-- `Auth.prototype.allow_publish`: same walk on the `allow_publish` slots. -/
def Auth.allow_publish (a : Auth) (package_name : String) (user : RemoteUser) :
    Option (Except JsError Bool) :=
  let pkg := a.packageFor package_name
  chainWalk (a.plugins.map fun p => p.allow_publish.map fun f => f user pkg)

/-! ### Signed token codec and credential cipher -/

/-- The payload object built by `issue_token`: `{u: user.name, g: real
groups when truthy and non-empty else undefined, t: now}`. -/
def issuePayload (user : RemoteUser) (now : Int) : Payload :=
  { u := user.name
    g := match user.real_groups with
         | some l => if l.length ≠ 0 then some l else none
         | none => none
    t := now }

/-- `Auth.prototype.issue_token`: serialize the payload, append the MAC over
the serialized bytes, base64-encode.  `now` stands for `~~(Date.now()/1000)`
(unix seconds). -/
def issue_token (secret : String) (user : RemoteUser) (now : Int) : String :=
  let data := serializePayload (issuePayload user now)
  base64encode (data ++ hmacSha256 secret data)

/-- `expire_time = expire_time || 24*60*60`: the default (and the JS
falsy-zero quirk). -/
def effectiveExpire (expire_time : Option Int) : Int :=
  match expire_time with
  | none => 24 * 60 * 60
  | some v => if v = 0 then 24 * 60 * 60 else v

/-- `Auth.prototype.decode_token`: length check, MAC comparison through the
secondary `sha512` digests, JSON parse, expiry window check. -/
def decode_token (secret : String) (str : String) (expire_time : Option Int) (now : Int) :
    Except JsError Payload :=
  let buf := base64decode str
  if buf.length ≤ 32 then .error (httpError 401 "invalid token")
  else
    let data := buf.take (buf.length - 32)
    let their_mac := buf.drop (buf.length - 32)
    let good_mac := hmacSha256 secret data
    if sha512hex their_mac ≠ sha512hex good_mac then .error (httpError 401 "bad signature")
    else
      let expire := effectiveExpire expire_time
      match parsePayload data with
      | none => .error { status := none, message := "jju parse error" }
      | some d =>
        if ((d.t - now).natAbs : Int) > expire then .error (httpError 401 "token expired")
        else .ok d

/-- `Auth.prototype.aes_encrypt`. -/
def aes_encrypt (secret : String) (buf : List Nat) : List Nat :=
  cryptoCipher secret buf

/-- `Auth.prototype.aes_decrypt`: the try/catch around the decipher maps any
deciphering failure to the empty byte sequence `new Buffer(0)`. -/
def aes_decrypt (secret : String) (buf : List Nat) : List Nat :=
  match cryptoDecipher secret buf with
  | some b => b
  | none => []

/-! ### Credential-extraction middlewares -/

/-- The request slice the middlewares read and write. -/
structure Request where
  remote_user : Option RemoteUser
  authorization : Option String
  cookie_token : Option String
deriving DecidableEq, Repr

/-- A middleware run's observable outcome: the final `req.remote_user` and
the argument the middleware's continuation was invoked with (`none` = no
error argument).  `crash` models the chain walk falling off the list
(impossible for a chain built by `Auth.make`). -/
inductive MwResult where
  | next (remote_user : Option RemoteUser) (err : Option JsError)
  | crash
deriving DecidableEq, Repr

/-- `req.remote_user != null && req.remote_user.name !== undefined`. -/
def hasNamedUser (ru : Option RemoteUser) : Bool :=
  match ru with
  | some u => u.name.isSome
  | none => false

/-- JS `String.prototype.split(sep)` on a character list. -/
def jsSplit (sep : Char) : List Char → List (List Char)
  | [] => [[]]
  | c :: rest =>
    if c = sep then [] :: jsSplit sep rest
    else
      match jsSplit sep rest with
      | [] => [[c]]
      | g :: gs => (c :: g) :: gs

/-- JS `String.prototype.indexOf` for a single character. -/
def jsIndexOf (c : Char) : List Char → Option Nat
  | [] => none
  | d :: rest => if d = c then some 0 else (jsIndexOf c rest).map (· + 1)

/-- `credentials.indexOf(':')` followed by the two slices; `none` models the
`index < 0 → next()` path. -/
def splitCred (credentials : String) : Option (String × String) :=
  match jsIndexOf ':' credentials.data with
  | none => none
  | some i => some (String.mk (credentials.data.take i), String.mk (credentials.data.drop (i + 1)))

/-- `Auth.prototype.basic_middleware`: its local `next(err)` swallows every
error, recording the message on the (anonymous) principal instead. -/
def basic_middleware (a : Auth) (req : Request) : MwResult :=
  if hasNamedUser req.remote_user then .next req.remote_user none
  else
    let anon := buildAnonymousUser
    match req.authorization with
    | none => .next (some anon) none
    | some authorization =>
      match jsSplit ' ' authorization.data with
      | [p0, p1] =>
        let scheme := String.mk p0
        let credentials? : Option String :=
          if scheme = "Basic" then
            some (bytesToString (base64decode (String.mk p1)))
          else if scheme = "Bearer" then
            let c := bytesToString (aes_decrypt a.secret (base64decode (String.mk p1)))
            if c = "" then none else some c
          else none
        match credentials? with
        | none => .next (some anon) none
        | some credentials =>
          match splitCred credentials with
          | none => .next (some anon) none
          | some (user, pass) =>
            match Auth.authenticate a user pass with
            | none => .crash
            | some (.ok u) => .next (some u) none
            | some (.error e) => .next (some { anon with error := some e.message }) none
      | _ => .next (some { anon with error := some "bad authorization header" }) none

/-- `Auth.prototype.bearer_middleware`: its local `next` forwards its
arguments to the continuation, so errors are propagated (400 bad header,
any `decode_token` failure). -/
def bearer_middleware (a : Auth) (now : Int) (req : Request) : MwResult :=
  if hasNamedUser req.remote_user then .next req.remote_user none
  else
    let anon := buildAnonymousUser
    match req.authorization with
    | none => .next (some anon) none
    | some authorization =>
      match jsSplit ' ' authorization.data with
      | [p0, p1] =>
        if String.mk p0 ≠ "Bearer" then .next (some anon) none
        else
          match decode_token a.secret (String.mk p1) none now with
          | .error e => .next (some anon) (some e)
          | .ok d =>
            .next (some { authenticatedUser d.u d.g with token := some (String.mk p1) }) none
      | _ => .next (some anon) (some (httpError 400 "bad authorization header"))

/-- `Auth.prototype.cookie_middleware`: its local `next(_err)` ignores its
argument entirely — every error is swallowed and nothing is recorded on the
principal. -/
def cookie_middleware (a : Auth) (req : Request) : MwResult :=
  if hasNamedUser req.remote_user then .next req.remote_user none
  else
    let anon := buildAnonymousUser
    match req.cookie_token with
    | none => .next (some anon) none
    | some token =>
      let credentials := bytesToString (aes_decrypt a.secret (base64decode token))
      if credentials = "" then .next (some anon) none
      else
        match splitCred credentials with
        | none => .next (some anon) none
        | some (user, pass) =>
          match Auth.authenticate a user pass with
          | none => .crash
          | some (.ok u) => .next (some u) none
          | some (.error _) => .next (some anon) none

/-! ### Codec roundtrip lemmas -/

theorem decVLQ_encVLQAux (f : Nat) : ∀ (n : Nat) (r : List Nat), n ≤ f →
    decVLQ (encVLQAux f n ++ r) = some (n, r) := by
  induction f with
  | zero =>
    intro n r hn
    interval_cases n
    simp [encVLQAux, decVLQ]
  | succ f ih =>
    intro n r hn
    rw [encVLQAux]
    by_cases h : n < 128
    · simp [h, decVLQ]
    · have hrec := ih (n / 128) r (by omega)
      simp only [h, if_false, List.cons_append, decVLQ]
      have h1 : ¬ (n % 128 + 128 < 128) := by omega
      simp only [h1, if_false, hrec]
      have h2 : n % 128 + 128 - 128 + 128 * (n / 128) = n := by omega
      rw [h2]

theorem decVLQ_enc (n : Nat) (r : List Nat) : decVLQ (encVLQ n ++ r) = some (n, r) :=
  decVLQ_encVLQAux n n r (Nat.le_refl n)

theorem encVLQAux_lt (f : Nat) : ∀ (n : Nat), ∀ b ∈ encVLQAux f n, b < 256 := by
  induction f with
  | zero => intro n b hb; simp [encVLQAux] at hb; omega
  | succ f ih =>
    intro n b hb
    rw [encVLQAux] at hb
    by_cases h : n < 128
    · simp [h] at hb; omega
    · simp only [h, if_false, List.mem_cons] at hb
      rcases hb with hb | hb
      · omega
      · exact ih _ b hb

theorem encVLQ_lt (n : Nat) : ∀ b ∈ encVLQ n, b < 256 :=
  encVLQAux_lt n n

theorem decChars_enc (cs : List Char) : ∀ r : List Nat,
    decChars cs.length (encChars cs ++ r) = some (cs, r) := by
  induction cs with
  | nil => intro r; simp [encChars, decChars]
  | cons c cs ih =>
    intro r
    simp only [encChars, List.length_cons, decChars, List.append_assoc, decVLQ_enc, ih,
      Char.ofNat_toNat]

theorem decStr_enc (s : String) (r : List Nat) : decStr (encStr s ++ r) = some (s, r) := by
  obtain ⟨d⟩ := s
  simp only [encStr, decStr, List.append_assoc, decVLQ_enc, decChars_enc]

theorem decStrs_enc (l : List String) : ∀ r : List Nat,
    decStrs l.length (encStrs l ++ r) = some (l, r) := by
  induction l with
  | nil => intro r; simp [encStrs, decStrs]
  | cons s ss ih =>
    intro r
    simp only [encStrs, List.length_cons, decStrs, List.append_assoc, decStr_enc, ih]

theorem decOptStr_enc (u : Option String) (r : List Nat) :
    decOptStr (encOptStr u ++ r) = some (u, r) := by
  cases u with
  | none => simp [encOptStr, decOptStr]
  | some s => simp [encOptStr, decOptStr, decStr_enc]

theorem decOptListStr_enc (g : Option (List String)) (r : List Nat) :
    decOptListStr (encOptListStr g ++ r) = some (g, r) := by
  cases g with
  | none => simp [encOptListStr, decOptListStr]
  | some l => simp [encOptListStr, decOptListStr, List.append_assoc, decVLQ_enc, decStrs_enc]

theorem decInt_enc (t : Int) (r : List Nat) : decInt (encInt t ++ r) = some (t, r) := by
  by_cases h : t < 0
  · simp only [encInt, h, if_true, List.cons_append, decInt, decVLQ_enc]
    congr 2
    omega
  · simp only [encInt, h, if_false, List.cons_append, decInt, decVLQ_enc]
    congr 2
    omega

theorem parse_serialize (p : Payload) : parsePayload (serializePayload p) = some p := by
  obtain ⟨u, g, t⟩ := p
  have h : encOptStr u ++ encOptListStr g ++ encInt t
      = encOptStr u ++ (encOptListStr g ++ (encInt t ++ [])) := by
    simp
  simp only [serializePayload, parsePayload, h, decOptStr_enc, decOptListStr_enc, decInt_enc,
    if_true]

/-! ### Byte bounds and transport roundtrips -/

theorem encChars_lt (cs : List Char) : ∀ b ∈ encChars cs, b < 256 := by
  induction cs with
  | nil => simp [encChars]
  | cons c cs ih =>
    intro b hb
    simp only [encChars, List.mem_append] at hb
    rcases hb with hb | hb
    · exact encVLQ_lt _ b hb
    · exact ih b hb

theorem encStr_lt (s : String) : ∀ b ∈ encStr s, b < 256 := by
  intro b hb
  simp only [encStr, List.mem_append] at hb
  rcases hb with hb | hb
  · exact encVLQ_lt _ b hb
  · exact encChars_lt _ b hb

theorem encStrs_lt (l : List String) : ∀ b ∈ encStrs l, b < 256 := by
  induction l with
  | nil => simp [encStrs]
  | cons s ss ih =>
    intro b hb
    simp only [encStrs, List.mem_append] at hb
    rcases hb with hb | hb
    · exact encStr_lt _ b hb
    · exact ih b hb

theorem encOptStr_lt (u : Option String) : ∀ b ∈ encOptStr u, b < 256 := by
  cases u with
  | none => simp [encOptStr]
  | some s =>
    intro b hb
    simp only [encOptStr, List.mem_cons] at hb
    rcases hb with hb | hb
    · omega
    · exact encStr_lt _ b hb

theorem encOptListStr_lt (g : Option (List String)) : ∀ b ∈ encOptListStr g, b < 256 := by
  cases g with
  | none => simp [encOptListStr]
  | some l =>
    intro b hb
    simp only [encOptListStr, List.mem_cons, List.mem_append] at hb
    rcases hb with hb | hb | hb
    · omega
    · exact encVLQ_lt _ b hb
    · exact encStrs_lt _ b hb

theorem encInt_lt (t : Int) : ∀ b ∈ encInt t, b < 256 := by
  intro b hb
  simp only [encInt, List.cons_append, List.mem_cons, List.nil_append, List.mem_append] at hb
  rcases hb with hb | hb
  · subst hb
    split <;> omega
  · exact encVLQ_lt _ b hb

theorem serializePayload_lt (p : Payload) : ∀ b ∈ serializePayload p, b < 256 := by
  intro b hb
  simp only [serializePayload, List.mem_append] at hb
  rcases hb with (hb | hb) | hb
  · exact encOptStr_lt _ b hb
  · exact encOptListStr_lt _ b hb
  · exact encInt_lt _ b hb

theorem serializePayload_length_pos (p : Payload) : 0 < (serializePayload p).length := by
  obtain ⟨u, g, t⟩ := p
  cases u <;> simp [serializePayload, encOptStr]

theorem hmacSha256_length (secret : String) (data : List Nat) :
    (hmacSha256 secret data).length = 32 := by
  simp [hmacSha256]

theorem hmacSha256_lt (secret : String) (data : List Nat) :
    ∀ b ∈ hmacSha256 secret data, b < 256 := by
  intro b hb
  simp only [hmacSha256, List.mem_map] at hb
  obtain ⟨i, _, hi⟩ := hb
  omega

theorem charToNat_ofNat {n : Nat} (h : n.isValidChar) : (Char.ofNat n).toNat = n := by
  rw [Char.ofNat, dif_pos h]
  rfl

theorem base64_roundtrip (l : List Nat) (h : ∀ b ∈ l, b < 256) :
    base64decode (base64encode l) = l := by
  simp only [base64encode, base64decode, List.map_map]
  conv_rhs => rw [← List.map_id l]
  apply List.map_congr_left
  intro b hb
  have hv : (b + 256).isValidChar := Or.inl (by have := h b hb; omega)
  simp [Function.comp, charToNat_ofNat hv]

theorem bytesToString_stringToBytes (s : String) : bytesToString (stringToBytes s) = s := by
  obtain ⟨d⟩ := s
  simp only [bytesToString, stringToBytes, List.map_map]
  congr 1
  conv_rhs => rw [← List.map_id d]
  apply List.map_congr_left
  intro c _
  simp [Function.comp, Char.ofNat_toNat]

theorem bytesToString_eq_empty_iff (l : List Nat) : bytesToString l = "" ↔ l = [] := by
  constructor
  · intro h
    have hd : (bytesToString l).data = ([] : List Char) := by rw [h]
    simp only [bytesToString] at hd
    exact List.map_eq_nil_iff.mp hd
  · intro h
    subst h
    rfl

/-! ### Decoding an issued token -/

theorem decode_issue (secret : String) (u : RemoteUser) (t0 now : Int) (e : Option Int) :
    decode_token secret (issue_token secret u t0) e now =
      if (((issuePayload u t0).t - now).natAbs : Int) > effectiveExpire e
      then .error (httpError 401 "token expired")
      else .ok (issuePayload u t0) := by
  have hlt : ∀ b ∈ serializePayload (issuePayload u t0) ++
      hmacSha256 secret (serializePayload (issuePayload u t0)), b < 256 := by
    intro b hb
    rcases List.mem_append.mp hb with hb | hb
    · exact serializePayload_lt _ b hb
    · exact hmacSha256_lt _ _ b hb
  have hpos := serializePayload_length_pos (issuePayload u t0)
  have hmlen := hmacSha256_length secret (serializePayload (issuePayload u t0))
  simp only [issue_token, decode_token, base64_roundtrip _ hlt]
  rw [List.length_append, hmlen]
  have h32 : ¬((serializePayload (issuePayload u t0)).length + 32 ≤ 32) := by omega
  rw [if_neg h32]
  have hcan : (serializePayload (issuePayload u t0)).length + 32 - 32
      = (serializePayload (issuePayload u t0)).length := by omega
  rw [hcan, List.take_left, List.drop_left]
  rw [if_neg (by simp)]
  rw [parse_serialize]

/-! ### Chain walk lemmas -/

theorem chainWalk_eq_firstVerdict {α : Type} (l : List (Option (PluginResult α))) :
    chainWalk l = firstVerdict (l.filterMap id) := by
  induction l with
  | nil => rfl
  | cons o rest ih =>
    cases o with
    | none => simpa [chainWalk] using ih
    | some r =>
      cases r with
      | err e => simp [chainWalk, firstVerdict]
      | ok v => simp [chainWalk, firstVerdict]
      | empty => simpa [chainWalk, firstVerdict] using ih

theorem filterMap_id_map_opmap {π β γ : Type} (l : List π) (sel : π → Option β) (g : β → γ) :
    (l.map fun p => (sel p).map g).filterMap id = (l.filterMap sel).map g := by
  induction l with
  | nil => rfl
  | cons p rest ih =>
    cases h : sel p with
    | none => simp [h, List.filterMap_cons, ih]
    | some b => simp [h, List.filterMap_cons, ih]

theorem chainWalk_cons_none {α : Type} (l : List (Option (PluginResult α))) :
    chainWalk (none :: l) = chainWalk l := rfl

theorem chainWalk_skip_nones {α : Type} (l l2 : List (Option (PluginResult α)))
    (h : ∀ o ∈ l, o = none) : chainWalk (l ++ l2) = chainWalk l2 := by
  induction l with
  | nil => rfl
  | cons o rest ih =>
    have ho : o = none := h o (List.mem_cons_self o rest)
    subst ho
    exact ih fun o ho => h o (List.mem_cons_of_mem _ ho)

/-! ### ACL fold and header split lemmas -/

theorem foldl_contains_or (groups : List String) (acl : List String) : ∀ b : Bool,
    acl.foldl (fun prev curr => if groups.contains curr then true else prev) b
      = (b || acl.any fun g => groups.contains g) := by
  induction acl with
  | nil => intro b; simp
  | cons g acl ih =>
    intro b
    rw [List.foldl_cons, ih, List.any_cons]
    by_cases h : g ∈ groups
    · cases b <;> simp [h]
    · cases b <;> simp [h]

theorem any_contains_iff (groups acl : List String) :
    (acl.any fun g => groups.contains g) = true ↔ ∃ g ∈ acl, g ∈ groups := by
  simp [List.any_eq_true]

theorem str_merge3 (A b c d e : String) (h : b ++ c ++ d = e) :
    A ++ b ++ c ++ d = A ++ e := by
  rw [← h, String.append_assoc, String.append_assoc, String.append_assoc]

theorem jsSplit_no_sep (sep : Char) (l : List Char) (h : sep ∉ l) : jsSplit sep l = [l] := by
  induction l with
  | nil => rfl
  | cons c rest ih =>
    have hc : ¬(c = sep) := fun hh => h (hh ▸ List.mem_cons_self c rest)
    have hr := ih fun hm => h (List.mem_cons_of_mem _ hm)
    simp [jsSplit, hc, hr]

theorem jsSplit_two (pre tail : List Char) (sep : Char) (hpre : sep ∉ pre) (htail : sep ∉ tail) :
    jsSplit sep (pre ++ sep :: tail) = [pre, tail] := by
  induction pre with
  | nil => simp [jsSplit, jsSplit_no_sep sep tail htail]
  | cons c pre ih =>
    have hc : ¬(c = sep) := fun hh => hpre (hh ▸ List.mem_cons_self c pre)
    have hr := ih fun hm => hpre (List.mem_cons_of_mem _ hm)
    simp [jsSplit, hc, hr]

theorem allow_action_spec (action : String) (user : RemoteUser) (pkg : Package) :
    allow_action action user pkg =
      if ∃ g ∈ pkg.acl action, g ∈ user.groups then .ok true
      else
        match user.name with
        | some n =>
          if n = "" then
            .err (httpError 403
              ("unregistered users are not allowed to " ++ action ++ " package " ++ pkg.name))
          else
            .err (httpError 403
              ("user " ++ n ++ " is not allowed to " ++ action ++ " package " ++ pkg.name))
        | none =>
          .err (httpError 403
            ("unregistered users are not allowed to " ++ action ++ " package " ++ pkg.name)) := by
  unfold allow_action
  rw [foldl_contains_or]
  by_cases h : ∃ g ∈ pkg.acl action, g ∈ user.groups
  · have ha : ((pkg.acl action).any fun g => user.groups.contains g) = true :=
      (any_contains_iff _ _).mpr h
    simp only [ha, Bool.false_or, if_true, h]
  · have ha : ((pkg.acl action).any fun g => user.groups.contains g) = false := by
      rcases hb : (pkg.acl action).any fun g => user.groups.contains g with _ | _
      · rfl
      · exact absurd ((any_contains_iff _ _).mp hb) h
    simp only [ha, Bool.false_or, if_false, h]
    simp

/-! ### Claim theorems -/

set_option maxRecDepth 100000

/-- C1: For every operation (authenticate, add_user, allow_access,
allow_publish) and every ordered provider list, the chain walk starts at
index 0 and consults providers in list order, skipping every provider that
does not implement the requested operation (the `filterMap`); the first
non-empty verdict decides the outcome: an error stops the walk and is
propagated to the caller, an affirmative result stops the walk and is
returned as success, and an empty result lets the walk continue
(`firstVerdict` of the eligible invocations in order). -/
theorem chain_resolution (a : Auth) (user password pname : String) (usr : RemoteUser) :
    (Auth.authenticate a user password =
      match firstVerdict ((a.plugins.filterMap fun p => p.authenticate).map
          fun f => f user password) with
      | none => none
      | some (.error e) => some (.error e)
      | some (.ok groups) => some (.ok (authenticatedUser (some user) (some groups))))
    ∧ (Auth.add_user a user password =
      match firstVerdict ((a.plugins.filterMap fun p => p.adduserOp).map
          fun f => f user password) with
      | none => none
      | some (.error e) => some (.error e)
      | some (.ok _) => Auth.authenticate a user password)
    ∧ (Auth.allow_access a pname usr =
        firstVerdict ((a.plugins.filterMap fun p => p.allow_access).map
          fun f => f usr (a.packageFor pname)))
    ∧ (Auth.allow_publish a pname usr =
        firstVerdict ((a.plugins.filterMap fun p => p.allow_publish).map
          fun f => f usr (a.packageFor pname))) := by
  refine ⟨?_, ?_, ?_, ?_⟩
  · simp only [Auth.authenticate, chainWalk_eq_firstVerdict, filterMap_id_map_opmap]
  · simp only [Auth.add_user, chainWalk_eq_firstVerdict, filterMap_id_map_opmap]
  · simp only [Auth.allow_access, chainWalk_eq_firstVerdict, filterMap_id_map_opmap]
  · simp only [Auth.allow_publish, chainWalk_eq_firstVerdict, filterMap_id_map_opmap]

/-- C9: a Bearer header carrying a validly-signed token for user "carol"
with groups `["dev"]`, issued 10 seconds before the current time, makes the
bearer middleware attach the principal with name "carol" and groups exactly
`["dev", "$all", "$authenticated", "@all", "@authenticated", "all"]` (the
five synthetic markers appended after the real groups), and continue
without an error. -/
theorem bearer_carol_scenario :
    bearer_middleware (Auth.make ⟨none, "s", fun _ => ⟨[], []⟩⟩ []) 1010
      ⟨none, some ("Bearer " ++ issue_token "s"
        { name := some "carol", groups := [], real_groups := some ["dev"] } 1000), none⟩
      = .next (some ⟨some "carol",
          ["dev", "$all", "$authenticated", "@all", "@authenticated", "all"],
          some ["dev"], none,
          some (issue_token "s"
            { name := some "carol", groups := [], real_groups := some ["dev"] } 1000)⟩) none := by
  decide

/-- C3 (amended): for every principal with a name, decoding the token
issued for it, with the same secret and within the expiry window, returns
a payload whose `u` equals the principal's name and whose `g` equals the
principal's `real_groups` when those are non-empty; when `real_groups` is
empty (or absent) the payload's `g` field is absent (`none`), not the
empty sequence. -/
theorem issue_decode_roundtrip (secret : String) (u : RemoteUser) (name : String) (t0 now : Int)
    (hname : u.name = some name) (hwin : (((t0 - now).natAbs : Int)) ≤ 86400) :
    decode_token secret (issue_token secret u t0) none now = .ok (issuePayload u t0)
    ∧ (issuePayload u t0).u = some name
    ∧ (∀ l, u.real_groups = some l → l ≠ [] → (issuePayload u t0).g = some l)
    ∧ (∀ l, u.real_groups = some l → l = [] → (issuePayload u t0).g = none)
    ∧ (u.real_groups = none → (issuePayload u t0).g = none) := by
  refine ⟨?_, ?_, ?_, ?_, ?_⟩
  · rw [decode_issue]
    have hno : ¬((((issuePayload u t0).t - now).natAbs : Int) > effectiveExpire none) := by
      simp only [issuePayload, effectiveExpire]
      omega
    rw [if_neg hno]
  · simp [issuePayload, hname]
  · intro l hl hne
    have hlen : l.length ≠ 0 := by simpa [List.length_eq_zero] using hne
    simp [issuePayload, hl, hlen]
  · intro l hl he
    subst he
    simp [issuePayload, hl]
  · intro h
    simp [issuePayload, h]

/-- C3 witness: the roundtrip at the concrete principal "alice" with
real_groups ["dev"], issued and decoded at time 1000. -/
theorem issue_decode_roundtrip_witness :
    decode_token "s" (issue_token "s" ⟨some "alice", [], some ["dev"], none, none⟩ 1000) none 1000
      = .ok (issuePayload ⟨some "alice", [], some ["dev"], none, none⟩ 1000) :=
  (issue_decode_roundtrip "s" ⟨some "alice", [], some ["dev"], none, none⟩ "alice" 1000 1000 rfl
    (by decide)).1

/-- C3 counterexample: for the principal "alice" whose `real_groups` is the
empty sequence, the decoded payload's `g` field is absent (`none`); it does
not equal the principal's `real_groups` (`some []`), refuting the claim for
the empty sequence. -/
theorem issue_decode_empty_groups_counterexample :
    decode_token "s" (issue_token "s" ⟨some "alice", [], some [], none, none⟩ 1000) none 1000
      = .ok ⟨some "alice", none, 1000⟩
    ∧ (none : Option (List String)) ≠ some [] :=
  ⟨by decide, by decide⟩

/-- C6: for every token whose length check and MAC check pass and whose
payload parses to `d`, `decode_token` fails with a 401 "token expired"
error exactly when `|d.t - now|` is strictly greater than the expiry
window (the passed `expire_seconds` when non-zero, 86400 by default), and
returns the payload otherwise — so a token decoded one second before the
expiry boundary succeeds. -/
theorem decode_token_expiry (secret str : String) (now : Int) (d : Payload)
    (hlen : 32 < (base64decode str).length)
    (hmac : sha512hex ((base64decode str).drop ((base64decode str).length - 32))
      = sha512hex (hmacSha256 secret ((base64decode str).take ((base64decode str).length - 32))))
    (hparse : parsePayload ((base64decode str).take ((base64decode str).length - 32)) = some d) :
    (∀ e : Int, e ≠ 0 →
      (decode_token secret str (some e) now = .error (httpError 401 "token expired")
        ↔ ((d.t - now).natAbs : Int) > e)
      ∧ (decode_token secret str (some e) now = .ok d ↔ ((d.t - now).natAbs : Int) ≤ e))
    ∧ ((decode_token secret str none now = .error (httpError 401 "token expired")
        ↔ ((d.t - now).natAbs : Int) > 86400)
      ∧ (decode_token secret str none now = .ok d ↔ ((d.t - now).natAbs : Int) ≤ 86400)) := by
  have key : ∀ eo : Option Int, decode_token secret str eo now
      = if ((d.t - now).natAbs : Int) > effectiveExpire eo
        then .error (httpError 401 "token expired") else .ok d := by
    intro eo
    simp only [decode_token]
    rw [if_neg (by omega), if_neg (not_not_intro hmac), hparse]
  refine ⟨?_, ?_⟩
  · intro e he
    have heff : effectiveExpire (some e) = e := by simp [effectiveExpire, he]
    rw [key (some e), heff]
    by_cases hc : ((d.t - now).natAbs : Int) > e
    · rw [if_pos hc]
      constructor
      · exact ⟨(fun _ => hc), (fun _ => rfl)⟩
      · exact ⟨(fun hh => by cases hh), (fun hh => absurd hc (not_lt.mpr hh))⟩
    · rw [if_neg hc]
      constructor
      · exact ⟨(fun hh => by cases hh), (fun hh => absurd hh hc)⟩
      · exact ⟨(fun _ => not_lt.mp hc), (fun _ => rfl)⟩
  · have heff : effectiveExpire none = 86400 := rfl
    rw [key none, heff]
    by_cases hc : ((d.t - now).natAbs : Int) > 86400
    · rw [if_pos hc]
      constructor
      · exact ⟨(fun _ => hc), (fun _ => rfl)⟩
      · exact ⟨(fun hh => by cases hh), (fun hh => absurd hc (not_lt.mpr hh))⟩
    · rw [if_neg hc]
      constructor
      · exact ⟨(fun hh => by cases hh), (fun hh => absurd hh hc)⟩
      · exact ⟨(fun _ => not_lt.mp hc), (fun _ => rfl)⟩

/-- C6 witness: a concrete issued token succeeds when decoded exactly 86400
seconds after issuance (one second before the boundary at 86401) and fails
"token expired" one second later. -/
theorem decode_token_expiry_witness :
    decode_token "s" (issue_token "s" ⟨some "a", [], some ["g"], none, none⟩ 1000) none
        (1000 + 86400) = .ok ⟨some "a", some ["g"], 1000⟩
    ∧ decode_token "s" (issue_token "s" ⟨some "a", [], some ["g"], none, none⟩ 1000) none
        (1000 + 86401) = .error (httpError 401 "token expired") := by
  constructor
  · exact (decode_token_expiry "s" _ (1000 + 86400) ⟨some "a", some ["g"], 1000⟩
      (by decide) (by decide) (by decide)).2.2.mpr (by decide)
  · exact (decode_token_expiry "s" _ (1000 + 86401) ⟨some "a", some ["g"], 1000⟩
      (by decide) (by decide) (by decide)).2.1.mpr (by decide)

/-- C4 (amended): the static-credential built-in provider's `adduser`
operation, when the username already has an entry in the configured user
table, fails with the "this user already exists" error carrying HTTP status
403 (Forbidden, not 409 Conflict); when the username is not in the table
(or no table is configured) it returns empty, deferring to a later
provider. -/
theorem builtin_adduser_behavior (config : Config) (u pw : String) :
    (∀ tbl, config.users = some tbl → tbl.lookup u ≠ none →
      ((builtinPlugin config).adduser.map fun f => f u pw)
        = some (.err (httpError 403 "this user already exists")))
    ∧ (∀ tbl, config.users = some tbl → tbl.lookup u = none →
      ((builtinPlugin config).adduser.map fun f => f u pw) = some .empty)
    ∧ (config.users = none →
      ((builtinPlugin config).adduser.map fun f => f u pw) = some .empty) := by
  refine ⟨?_, ?_, ?_⟩
  · intro tbl h hne
    obtain ⟨x, hx⟩ := Option.ne_none_iff_exists'.mp hne
    simp [builtinPlugin, h, hx]
  · intro tbl h hl
    simp [builtinPlugin, h, hl]
  · intro h
    simp [builtinPlugin, h]

/-- C4 witness: at a config whose table contains "bob", `adduser` for "bob"
errors "this user already exists" with status 403. -/
theorem builtin_adduser_behavior_witness :
    ((builtinPlugin ⟨some [("bob", "h")], "s", fun _ => ⟨[], []⟩⟩).adduser.map
        fun f => f "bob" "pw")
      = some (.err (httpError 403 "this user already exists")) :=
  (builtin_adduser_behavior ⟨some [("bob", "h")], "s", fun _ => ⟨[], []⟩⟩ "bob" "pw").1
    [("bob", "h")] rfl (by decide)

/-- C4 counterexample: at the same concrete input the error's HTTP status
is 403, not the 409 Conflict the claim states. -/
theorem builtin_adduser_status_counterexample :
    ((builtinPlugin ⟨some [("bob", "h")], "s", fun _ => ⟨[], []⟩⟩).adduser.map
        fun f => f "bob" "pw")
      = some (.err ⟨some 403, "this user already exists"⟩)
    ∧ (some 403 : Option Nat) ≠ some 409 :=
  ⟨by decide, by decide⟩

/-- C2: against a chain in which no external provider implements the allow
operations (so the deny-all built-in, always last, decides), `allow_access`
succeeds with `true` iff some group of the package's access ACL occurs in
the principal's groups; otherwise it fails with a 403 Forbidden whose
message names the principal when it has a (non-empty, JS-truthy) name and
says "unregistered users" when the principal is anonymous; same for
`allow_publish` with the publish ACL. -/
theorem allow_denyall_acl (config : Config) (ext : List Plugin) (user : RemoteUser)
    (pname : String)
    (hacc : ∀ p ∈ ext, p.allow_access = none) (hpub : ∀ p ∈ ext, p.allow_publish = none) :
    (Auth.allow_access (Auth.make config ext) pname user = some (.ok true)
      ↔ ∃ g ∈ (config.get_package_spec pname).access, g ∈ user.groups)
    ∧ ((¬ ∃ g ∈ (config.get_package_spec pname).access, g ∈ user.groups) →
        (user.name = none →
          Auth.allow_access (Auth.make config ext) pname user = some (.error (httpError 403
            ("unregistered users are not allowed to access package " ++ pname))))
        ∧ (∀ n, user.name = some n → n ≠ "" →
          Auth.allow_access (Auth.make config ext) pname user = some (.error (httpError 403
            ("user " ++ n ++ " is not allowed to access package " ++ pname)))))
    ∧ (Auth.allow_publish (Auth.make config ext) pname user = some (.ok true)
      ↔ ∃ g ∈ (config.get_package_spec pname).publish, g ∈ user.groups)
    ∧ ((¬ ∃ g ∈ (config.get_package_spec pname).publish, g ∈ user.groups) →
        (user.name = none →
          Auth.allow_publish (Auth.make config ext) pname user = some (.error (httpError 403
            ("unregistered users are not allowed to publish package " ++ pname))))
        ∧ (∀ n, user.name = some n → n ≠ "" →
          Auth.allow_publish (Auth.make config ext) pname user = some (.error (httpError 403
            ("user " ++ n ++ " is not allowed to publish package " ++ pname))))) := by
  have hmemF : ∀ p ∈ ext.filter (fun p =>
      p.authenticate.isSome || p.allow_access.isSome || p.allow_publish.isSome), p ∈ ext :=
    fun p hp => List.mem_of_mem_filter hp
  have hba : (builtinPlugin config).allow_access = none := rfl
  have hbp : (builtinPlugin config).allow_publish = none := rfl
  have hda : denyAllPlugin.allow_access = some (allow_action "access") := rfl
  have hdp : denyAllPlugin.allow_publish = some (allow_action "publish") := rfl
  have haccEq : Auth.allow_access (Auth.make config ext) pname user
      = chainWalk [some (allow_action "access" user ((Auth.make config ext).packageFor pname))] := by
    simp only [Auth.allow_access]
    show chainWalk ((builtinPlugin config :: (ext.filter _) ++ [denyAllPlugin]).map
      fun p => p.allow_access.map fun f => f user ((Auth.make config ext).packageFor pname)) = _
    simp only [List.map_cons, List.map_append, List.map_nil, hba, hda, Option.map_none',
      Option.map_some', chainWalk_cons_none]
    rw [chainWalk_skip_nones]
    intro o ho
    rcases List.mem_cons.mp ho with ho | ho
    · exact ho
    · rcases List.mem_map.mp ho with ⟨p, hp, hpe⟩
      rw [← hpe, hacc p (hmemF p hp)]
      rfl
  have hpubEq : Auth.allow_publish (Auth.make config ext) pname user
      = chainWalk [some (allow_action "publish" user ((Auth.make config ext).packageFor pname))] := by
    simp only [Auth.allow_publish]
    show chainWalk ((builtinPlugin config :: (ext.filter _) ++ [denyAllPlugin]).map
      fun p => p.allow_publish.map fun f => f user ((Auth.make config ext).packageFor pname)) = _
    simp only [List.map_cons, List.map_append, List.map_nil, hbp, hdp, Option.map_none',
      Option.map_some', chainWalk_cons_none]
    rw [chainWalk_skip_nones]
    intro o ho
    rcases List.mem_cons.mp ho with ho | ho
    · exact ho
    · rcases List.mem_map.mp ho with ⟨p, hp, hpe⟩
      rw [← hpe, hpub p (hmemF p hp)]
      rfl
  have hpkgacc : ((Auth.make config ext).packageFor pname).acl "access"
      = (config.get_package_spec pname).access := by
    simp [Auth.packageFor, Package.acl, Auth.make]
  have hpkgpub : ((Auth.make config ext).packageFor pname).acl "publish"
      = (config.get_package_spec pname).publish := by
    simp [Auth.packageFor, Package.acl, Auth.make]
  have hpkgname : ((Auth.make config ext).packageFor pname).name = pname := rfl
  refine ⟨?_, ?_, ?_, ?_⟩
  · rw [haccEq, allow_action_spec, hpkgacc]
    by_cases hex : ∃ g ∈ (config.get_package_spec pname).access, g ∈ user.groups
    · rw [if_pos hex]
      exact ⟨(fun _ => hex), (fun _ => rfl)⟩
    · rw [if_neg hex]
      constructor
      · intro hh
        exfalso
        cases hu : user.name with
        | none => rw [hu] at hh; simp [chainWalk] at hh
        | some n =>
          rw [hu] at hh
          by_cases hn : n = "" <;> simp [hn, chainWalk] at hh
      · intro hh
        exact absurd hh hex
  · intro hex
    constructor
    · intro hu
      rw [haccEq, allow_action_spec, hpkgacc, hpkgname, hu, if_neg hex]
      rw [str_merge3 "unregistered users are not allowed to " "access" " package " pname
        ("access" ++ " package " ++ pname) rfl]
      rfl
    · intro n hu hn
      rw [haccEq, allow_action_spec, hpkgacc, hpkgname, hu, if_neg hex]
      simp only [if_neg hn]
      rw [str_merge3 ("user " ++ n) " is not allowed to " "access" " package "
        " is not allowed to access package " rfl]
      rfl
  · rw [hpubEq, allow_action_spec, hpkgpub]
    by_cases hex : ∃ g ∈ (config.get_package_spec pname).publish, g ∈ user.groups
    · rw [if_pos hex]
      exact ⟨(fun _ => hex), (fun _ => rfl)⟩
    · rw [if_neg hex]
      constructor
      · intro hh
        exfalso
        cases hu : user.name with
        | none => rw [hu] at hh; simp [chainWalk] at hh
        | some n =>
          rw [hu] at hh
          by_cases hn : n = "" <;> simp [hn, chainWalk] at hh
      · intro hh
        exact absurd hh hex
  · intro hex
    constructor
    · intro hu
      rw [hpubEq, allow_action_spec, hpkgpub, hpkgname, hu, if_neg hex]
      rw [str_merge3 "unregistered users are not allowed to " "publish" " package " pname
        ("publish" ++ " package " ++ pname) rfl]
      rfl
    · intro n hu hn
      rw [hpubEq, allow_action_spec, hpkgpub, hpkgname, hu, if_neg hex]
      simp only [if_neg hn]
      rw [str_merge3 ("user " ++ n) " is not allowed to " "publish" " package "
        " is not allowed to publish package " rfl]
      rfl

/-- C2 witness: the default chain with no external providers, the package
with access ACL ["dev"] and publish ACL ["ops"], and the named principal
"carol" with groups ["dev"]: access succeeds iff the ACL intersects, and
the failing publish case yields the 403 naming carol. -/
theorem allow_denyall_acl_witness :
    (Auth.allow_access (Auth.make ⟨none, "s", fun _ => ⟨["dev"], ["ops"]⟩⟩ []) "pkgX"
        ⟨some "carol", ["dev"], some ["dev"], none, none⟩ = some (.ok true)
      ↔ ∃ g ∈ ["dev"], g ∈ ["dev"]) :=
  (allow_denyall_acl ⟨none, "s", fun _ => ⟨["dev"], ["ops"]⟩⟩ []
    ⟨some "carol", ["dev"], some ["dev"], none, none⟩ "pkgX"
    (by simp) (by simp)).1

/-- C10: every anonymous principal has groups equal to exactly the seven
strings `$all`, `$anonymous`, `@all`, `@anonymous`, `all`, and the literal
strings `undefined` and `anonymous`; consequently the deny-all provider's
allow_access/allow_publish succeed for the anonymous principal whenever the
package's corresponding ACL contains any of these seven strings. -/
theorem anonymous_groups_denyall :
    buildAnonymousUser.groups
      = ["$all", "$anonymous", "@all", "@anonymous", "all", "undefined", "anonymous"]
    ∧ (∀ (pkg : Package) (g : String), g ∈ pkg.access → g ∈ buildAnonymousUser.groups →
        (denyAllPlugin.allow_access.map fun f => f buildAnonymousUser pkg) = some (.ok true))
    ∧ (∀ (pkg : Package) (g : String), g ∈ pkg.publish → g ∈ buildAnonymousUser.groups →
        (denyAllPlugin.allow_publish.map fun f => f buildAnonymousUser pkg) = some (.ok true)) := by
  refine ⟨rfl, ?_, ?_⟩
  · intro pkg g hg hmem
    have hd : denyAllPlugin.allow_access = some (allow_action "access") := rfl
    have hacl : pkg.acl "access" = pkg.access := by simp [Package.acl]
    rw [hd, Option.map_some', allow_action_spec, hacl, if_pos ⟨g, hg, hmem⟩]
  · intro pkg g hg hmem
    have hd : denyAllPlugin.allow_publish = some (allow_action "publish") := rfl
    have hacl : pkg.acl "publish" = pkg.publish := by simp [Package.acl]
    rw [hd, Option.map_some', allow_action_spec, hacl, if_pos ⟨g, hg, hmem⟩]

/-- C10 witness: a package whose access ACL contains the literal string
"undefined" is accessible to the anonymous principal through the deny-all
provider. -/
theorem anonymous_groups_denyall_witness :
    (denyAllPlugin.allow_access.map fun f => f buildAnonymousUser ⟨"p", ["undefined"], []⟩)
      = some (.ok true) :=
  anonymous_groups_denyall.2.1 ⟨"p", ["undefined"], []⟩ "undefined" (by decide) (by decide)

/-- C7: for every request with no named principal whose Authorization header
is `Bearer <token>` and whose token fails `decode_token` (too short, bad
signature, or expired), the bearer middleware invokes its continuation with
that error (propagated, not swallowed and not recorded on the principal,
which stays the plain anonymous principal). -/
theorem bearer_error_propagates (a : Auth) (ru : Option RemoteUser) (ct : Option String)
    (now : Int) (tok : List Char) (e : JsError)
    (hru : hasNamedUser ru = false) (htok : ' ' ∉ tok)
    (hdec : decode_token a.secret (String.mk tok) none now = .error e) :
    bearer_middleware a now ⟨ru, some (String.mk ("Bearer ".data ++ tok)), ct⟩
      = .next (some buildAnonymousUser) (some e) := by
  have hsplit : jsSplit ' ' ("Bearer ".data ++ tok) = ["Bearer".data, tok] := by
    show jsSplit ' ' ("Bearer".data ++ ' ' :: tok) = _
    exact jsSplit_two _ tok ' ' (by decide) htok
  simp only [bearer_middleware, hru, Bool.false_eq_true, if_false, hsplit]
  rw [show (String.mk "Bearer".data : String) = "Bearer" from rfl]
  rw [if_neg (by simp), hdec]

/-- C7 witness: the too-short token "A" makes the bearer middleware abort
with the 401 "invalid token" error while the principal stays anonymous. -/
theorem bearer_error_propagates_witness :
    bearer_middleware (Auth.make ⟨none, "s", fun _ => ⟨[], []⟩⟩ []) 0
      ⟨none, some (String.mk ("Bearer ".data ++ "A".data)), none⟩
      = .next (some buildAnonymousUser) (some (httpError 401 "invalid token")) :=
  bearer_error_propagates (Auth.make ⟨none, "s", fun _ => ⟨[], []⟩⟩ []) none none 0 "A".data
    (httpError 401 "invalid token") rfl (by decide) (by decide)

/-- C8: `aes_decrypt` never raises: when the underlying decipher fails (bad
padding, corrupt input) it returns the empty byte sequence, and a cookie
carrying such a malformed encrypted blob drives the cookie middleware to
exactly the same outcome as a request with no cookie at all. -/
theorem aes_decrypt_degrades (secret : String) (buf : List Nat) (a : Auth)
    (ru : Option RemoteUser) (az : Option String) (t : String)
    (hfail : cryptoDecipher secret buf = none)
    (hru : hasNamedUser ru = false)
    (htfail : cryptoDecipher a.secret (base64decode t) = none) :
    aes_decrypt secret buf = []
    ∧ cookie_middleware a ⟨ru, az, some t⟩ = cookie_middleware a ⟨ru, az, none⟩ := by
  constructor
  · simp [aes_decrypt, hfail]
  · simp only [cookie_middleware, hru, Bool.false_eq_true, if_false]
    simp [aes_decrypt, htfail, bytesToString]

/-- C8 witness: the empty blob and a blob not produced by the cipher both
fail deciphering; the middleware outcome equals the no-cookie outcome. -/
theorem aes_decrypt_degrades_witness :
    aes_decrypt "s" [] = []
    ∧ cookie_middleware (Auth.make ⟨none, "s", fun _ => ⟨[], []⟩⟩ []) ⟨none, none, some "A"⟩
      = cookie_middleware (Auth.make ⟨none, "s", fun _ => ⟨[], []⟩⟩ []) ⟨none, none, none⟩ :=
  aes_decrypt_degrades "s" [] (Auth.make ⟨none, "s", fun _ => ⟨[], []⟩⟩ []) none none "A"
    (by decide) rfl (by decide)

/-- C5 (amended): for every request carrying credentials that fail
authentication, neither the Basic middleware nor the Cookie middleware
aborts the request: both invoke the continuation without an error and leave
the anonymous principal attached.  The Basic middleware records the
failure's diagnostic message on that principal; the Cookie middleware's
local continuation ignores the error entirely, so nothing is recorded on
its principal. -/
theorem basic_cookie_swallow (a : Auth) (ru : Option RemoteUser) (ct az : Option String)
    (tail : List Char) (uB pB : String) (eB : JsError)
    (tC credC : String) (uC pC : String) (eC : JsError)
    (hru : hasNamedUser ru = false)
    (htail : ' ' ∉ tail)
    (hsplitB : splitCred (bytesToString (base64decode (String.mk tail))) = some (uB, pB))
    (hauthB : Auth.authenticate a uB pB = some (.error eB))
    (hcredC : bytesToString (aes_decrypt a.secret (base64decode tC)) = credC)
    (hneC : credC ≠ "")
    (hsplitC : splitCred credC = some (uC, pC))
    (hauthC : Auth.authenticate a uC pC = some (.error eC)) :
    basic_middleware a ⟨ru, some (String.mk ("Basic ".data ++ tail)), ct⟩
      = .next (some { buildAnonymousUser with error := some eB.message }) none
    ∧ cookie_middleware a ⟨ru, az, some tC⟩ = .next (some buildAnonymousUser) none := by
  constructor
  · have hsplit : jsSplit ' ' ("Basic ".data ++ tail) = ["Basic".data, tail] := by
      show jsSplit ' ' ("Basic".data ++ ' ' :: tail) = _
      exact jsSplit_two _ tail ' ' (by decide) htail
    simp only [basic_middleware, hru, Bool.false_eq_true, if_false, hsplit]
    rw [show (String.mk "Basic".data : String) = "Basic" from rfl]
    simp only [if_true, hsplitB, hauthB]
  · simp only [cookie_middleware, hru, Bool.false_eq_true, if_false, hcredC]
    rw [if_neg hneC]
    simp only [hsplitC, hauthC]

/-- C5 witness: against the default chain (which denies "bob"/"pw"), a
Basic header and an encrypted cookie for "bob:pw" both continue the request
without an error; the Basic principal carries the diagnostic message. -/
theorem basic_cookie_swallow_witness :
    basic_middleware (Auth.make ⟨none, "s", fun _ => ⟨[], []⟩⟩ [])
      ⟨none, some (String.mk ("Basic ".data ++ (base64encode (stringToBytes "bob:pw")).data)),
        none⟩
      = .next (some { buildAnonymousUser with
          error := some "bad username/password, access denied" }) none
    ∧ cookie_middleware (Auth.make ⟨none, "s", fun _ => ⟨[], []⟩⟩ [])
        ⟨none, none, some (base64encode (aes_encrypt "s" (stringToBytes "bob:pw")))⟩
      = .next (some buildAnonymousUser) none :=
  basic_cookie_swallow (Auth.make ⟨none, "s", fun _ => ⟨[], []⟩⟩ []) none none none
    (base64encode (stringToBytes "bob:pw")).data "bob" "pw"
    (httpError 403 "bad username/password, access denied")
    (base64encode (aes_encrypt "s" (stringToBytes "bob:pw"))) "bob:pw" "bob" "pw"
    (httpError 403 "bad username/password, access denied")
    rfl (by decide) (by decide) (by decide) (by decide) (by decide) (by decide) (by decide)

/-- C5 counterexample: on an encrypted cookie for "bob:pw" whose
authentication fails with the "bad username/password, access denied"
message, the cookie middleware leaves the principal's `error` field `none`:
the diagnostic message is not recorded on the principal, refuting the claim
for the Cookie middleware. -/
theorem cookie_message_not_recorded_counterexample :
    cookie_middleware (Auth.make ⟨none, "s", fun _ => ⟨[], []⟩⟩ [])
      ⟨none, none, some (base64encode (aes_encrypt "s" (stringToBytes "bob:pw")))⟩
      = .next (some buildAnonymousUser) none
    ∧ buildAnonymousUser.error = none
    ∧ Auth.authenticate (Auth.make ⟨none, "s", fun _ => ⟨[], []⟩⟩ []) "bob" "pw"
      = some (.error (httpError 403 "bad username/password, access denied")) :=
  ⟨by decide, rfl, by decide⟩

end Verdaccio
